import Mathlib

/-!
Verification of the datasheet-downloader resolution engine
(src/datasheet_downloader/downloader.py), shallowly embedded in Lean.

Strings from the Python source are modelled as lists of characters
(`List Char`); Python string methods used by the code (lower, startswith,
substring containment, endswith, slicing) are given explicit executable
counterparts below.
-/

namespace DatasheetDL

/-- Character strings of the embedded program. -/
abbrev Str := List Char

/-- Python s.startswith(p): the second list is an initial segment of the
first.  Executable counterpart of str.startswith restricted to the list
model. -/
def startsWithSeq : Str → Str → Bool
  | _, [] => true
  | [], _ :: _ => false
  | a :: as, b :: bs => a == b && startsWithSeq as bs

/-- Python p in s: the first list occurs contiguously inside the second. -/
def containsSeq (t : Str) : Str → Bool
  | [] => t.isEmpty
  | c :: rest => startsWithSeq (c :: rest) t || containsSeq t rest

/-- Python s.endswith(p). -/
def endsWithSeq (s p : Str) : Bool :=
  startsWithSeq s.reverse p.reverse

/-- Python s.lower() (ASCII case folding, which is what the part numbers,
content types and page texts of this program use). -/
def lowerSeq (s : Str) : Str :=
  s.map Char.toLower

theorem startsWithSeq_length {s p : Str} (h : startsWithSeq s p = true) :
    p.length ≤ s.length := by
  induction p generalizing s with
  | nil => simp
  | cons b bs ih =>
    cases s with
    | nil => simp [startsWithSeq] at h
    | cons a as =>
      simp only [startsWithSeq, Bool.and_eq_true] at h
      simpa [List.length_cons] using Nat.succ_le_succ (ih h.2)

/-! ## 4.1 Manufacturer Identifier (_identify_manufacturer, lines 245-290)

The source lowers the part number, takes its first three characters, and
scans a static table (a Python dict literal, iterated in insertion order)
returning the value of the first entry whose key is a startswith-match of
that three-character string. -/

/-- The static table prefix_map of the source, in its literal order. -/
def prefix_map : List (Str × Str) :=
  [("lm".toList, "ti".toList),
   ("tps".toList, "ti".toList),
   ("ads".toList, "ti".toList),
   ("msp".toList, "ti".toList),
   ("cc".toList, "ti".toList),
   ("tlv".toList, "ti".toList),
   ("mc".toList, "nxp".toList),
   ("ad".toList, "analog".toList),
   ("lt".toList, "analog".toList),
   ("max".toList, "analog".toList),
   ("ncp".toList, "onsemi".toList),
   ("ncv".toList, "onsemi".toList),
   ("stm".toList, "st".toList),
   ("l6".toList, "st".toList),
   ("l7".toList, "st".toList),
   ("bsp".toList, "infineon".toList),
   ("irfp".toList, "infineon".toList),
   ("irf".toList, "infineon".toList),
   ("tls".toList, "infineon".toList),
   ("tle".toList, "infineon".toList),
   ("mic".toList, "microchip".toList),
   ("pic".toList, "microchip".toList),
   ("atmega".toList, "microchip".toList),
   ("bd".toList, "rohm".toList)]

/-- part_prefix = part_number.lower()[:3] of the source. -/
def partPref3 (pn : Str) : Str :=
  (lowerSeq pn).take 3

/-- The per-entry test of the source loop:
part_prefix.startswith(key). -/
def entryMatches (pn : Str) (e : Str × Str) : Bool :=
  startsWithSeq (partPref3 pn) e.1

/-- _identify_manufacturer: first table entry whose key matches wins;
none when no entry matches.  Total by construction. -/
def identifyManufacturer (pn : Str) : Option Str :=
  (prefix_map.find? (entryMatches pn)).map (fun e => e.2)

/-! ## 4.1 secondary operation (_get_manufacturer_specific_search,
lines 318-345) and the strategy list of search_by_part_number
(lines 797-814) -/

/-- The manufacturer_names display-name table of the source. -/
def manufacturer_names : List (Str × Str) :=
  [("ti".toList, "Texas Instruments".toList),
   ("nxp".toList, "NXP Semiconductors".toList),
   ("analog".toList, "Analog Devices".toList),
   ("onsemi".toList, "ON Semiconductor".toList),
   ("st".toList, "STMicroelectronics".toList),
   ("infineon".toList, "Infineon Technologies".toList),
   ("microchip".toList, "Microchip Technology".toList),
   ("rohm".toList, "ROHM Semiconductor".toList)]

/-- _get_manufacturer_specific_search: none when no manufacturer is
identified, otherwise the part number, the display name (falling back to
the key, as dict.get(manufacturer, manufacturer) does) and the fixed
suffix. -/
def getManufacturerSpecificSearch (pn : Str) : Option Str :=
  match identifyManufacturer pn with
  | none => none
  | some m =>
    let mfrName := ((manufacturer_names.find? (fun e => e.1 == m)).map (fun e => e.2)).getD m
    some (pn ++ " ".toList ++ mfrName ++ " datasheet filetype:pdf".toList)

/-- The Python truthiness filter [s for s in strategies if s]: drops
None entries and empty strings. -/
def truthyFilter (l : List (Option Str)) : List Str :=
  l.filterMap (fun o => o.bind (fun s => if s.isEmpty then none else some s))

/-- The search_strategies list of search_by_part_number, after the
truthiness filter of the source. -/
def searchStrategies (pn : Str) : List Str :=
  truthyFilter
    [some (pn ++ " datasheet filetype:pdf".toList),
     getManufacturerSpecificSearch pn,
     some (pn ++ " technical documentation filetype:pdf".toList),
     some (pn ++ " specifications datasheet pdf".toList),
     some (pn ++ " datasheet".toList)]

/-! ## 4.3 PDF Classifier (is_likely_datasheet, lines 347-443)

The downloaded file is modelled by the observations the classifier makes
of it: presence on disk, byte size, availability of the PyMuPDF runtime,
the extracted text of each page, and the metadata title (None both for a
missing metadata title and for an empty one, which Python truthiness
treats alike).  The float division file_size_kb = size/1024 is exact for
integer sizes, so the two kB threshold comparisons are expressed exactly
on byte counts. -/

structure FileModel where
  onDisk : Bool
  sizeBytes : Nat
  fitzAvailable : Bool
  pages : List Str
  metaTitle : Option Str

/-- The branch of is_likely_datasheet that produced the verdict,
abstracting the formatted reason string of the source. -/
inductive Reason where
  | notExist
  | tooSmall
  | tooLarge
  | sizeOnlyAccepted
  | tooFewPages (n : Nat)
  | tooManyPages (n : Nat)
  | exclusionTerm (t : Str)
  | metaExclusionTerm (t : Str)
  | datasheetIdentified
  | formatBased
  | potentialDatasheet
deriving DecidableEq

/-- The exclusionary_terms list of the source (two entries contain an
apostrophe, written here via its character code). -/
def exclusionaryTerms : List Str :=
  ["user guide".toList,
   "user manual".toList,
   "catalog".toList,
   "product catalog".toList,
   "selection guide".toList,
   "reference guide".toList,
   "reference manual".toList,
   "application note".toList,
   "guide d".toList ++ [Char.ofNat 39] ++ "utilisation".toList,
   "handbuch".toList,
   "instruction manual".toList,
   "programmer".toList ++ [Char.ofNat 39] ++ "s guide".toList,
   "programming guide".toList]

/-- The datasheet_terms list of the source (all already lower case, so
the term.lower() of the source is the identity on them). -/
def datasheetTerms : List Str :=
  ["datasheet".toList,
   "technical data".toList,
   "specifications".toList,
   "electrical characteristics".toList,
   "block diagram".toList,
   "typical application".toList,
   "pin configuration".toList,
   "features".toList,
   "absolute maximum ratings".toList,
   "recommended operating conditions".toList]

/-- The nested loop of the source scanning pages for exclusionary terms:
pages in order, and for each page the terms in list order; the first hit
is returned. -/
def scanExclusion : List Str → Option Str
  | [] => none
  | p :: rest =>
    match exclusionaryTerms.find? (fun t => containsSeq t (lowerSeq p)) with
    | some t => some t
    | none => scanExclusion rest

/-- The closing accept branches of is_likely_datasheet, shared by the
with-metadata and without-metadata paths. -/
def finalVerdict (termFound titleIsDatasheet : Bool) (pageCount : Nat) : Bool × Reason :=
  if termFound || titleIsDatasheet then (true, .datasheetIdentified)
  else if 5 ≤ pageCount ∧ pageCount ≤ 100 then (true, .formatBased)
  else (true, .potentialDatasheet)

/-- is_likely_datasheet, in the decision order of the source: existence,
size bounds (50 kB and 20000 kB on the exact byte count), PyMuPDF
availability, page-count bounds, exclusion scan of the first
min(5, pageCount) pages, then the inclusion and metadata checks. -/
def isLikelyDatasheet (f : FileModel) : Bool × Reason :=
  if f.onDisk = false then (false, .notExist)
  else if f.sizeBytes < 50 * 1024 then (false, .tooSmall)
  else if 20000 * 1024 < f.sizeBytes then (false, .tooLarge)
  else if f.fitzAvailable = false then (true, .sizeOnlyAccepted)
  else
    let pageCount := f.pages.length
    if pageCount < 3 then (false, .tooFewPages pageCount)
    else if 200 < pageCount then (false, .tooManyPages pageCount)
    else
      match scanExclusion (f.pages.take 5) with
      | some t => (false, .exclusionTerm t)
      | none =>
        let firstPageText := lowerSeq (f.pages.headD [])
        let termFound := datasheetTerms.any (fun t => containsSeq t firstPageText)
        match f.metaTitle with
        | some title0 =>
          if title0.isEmpty then finalVerdict termFound false pageCount
          else
            let title := lowerSeq title0
            let titleIsDatasheet :=
              containsSeq ("datasheet".toList) title || containsSeq ("data sheet".toList) title
            match exclusionaryTerms.find? (fun t => containsSeq t title) with
            | some t => (false, .metaExclusionTerm t)
            | none => finalVerdict termFound titleIsDatasheet pageCount
        | none => finalVerdict termFound false pageCount

/-! ## 4.2 Resilient Downloader (download_direct_pdf, lines 167-243)

The filesystem is modelled as an association list from file names (the
download directory is fixed, so paths are identified with file names) to
a completeness flag: true for a fully transferred body, false for a file
whose body transfer raised midway (open(path, "wb") creates the file and
the chunks written before the exception persist).  The network is an
oracle giving the outcome of each HTTP attempt of the call, and the
uniform(0, 1) jitter of the backoff is an oracle of rational samples;
the sleeps field of the result records every backoff delay the source
would have slept, as 2^attempt + jitter(attempt). -/

/-- Filesystem state: name of file on disk, paired with whether its body
transfer had completed. -/
abbrev FS := List (Str × Bool)

def fsLookup (fs : FS) (p : Str) : Option Bool :=
  (fs.find? (fun e => e.1 == p)).map (fun e => e.2)

def fsSet (fs : FS) (p : Str) (c : Bool) : FS :=
  (p, c) :: fs

def fsRemove (fs : FS) (p : Str) : FS :=
  fs.filter (fun e => !(e.1 == p))

/-- Outcome of one HTTP attempt of the source loop:
netFail models a requests exception raised by requests.get or
raise_for_status (nothing written); resp models a 2xx response carrying
the declared Content-Type, whose body transfer either completes
(bodyErr = none) or raises a requests exception midway
(bodyErr = some message, leaving a partially written file). -/
inductive NetAttempt where
  | netFail (errMsg : Str)
  | resp (contentType : Str) (bodyErr : Option Str)
deriving DecidableEq

/-- The message component of the returned tuple, abstracting the
formatted strings of the source into their branch and payload. -/
inductive DlMsg where
  | alreadyExists
  | downloaded
  | notPdf (contentType : Str)
  | failedAfterRetries (attempts : Nat) (lastErr : Str)
  | unknownError
deriving DecidableEq

/-- The tuple (success, message, filepath, download_url) returned by
download_direct_pdf, together with the resulting filesystem, the number
of HTTP attempts performed, and the backoff delays slept. -/
structure DlOut where
  success : Bool
  msg : DlMsg
  filepath : Option Str
  urlOut : Option Str
  fs : FS
  calls : Nat
  sleeps : List Rat
deriving DecidableEq

/-- The filename sanitization of the source: keep alphanumerics and
the characters hyphen, underscore and dot, replace everything else by
an underscore. -/
def sanitizeName (pn : Str) : Str :=
  pn.map (fun c => if c.isAlphanum || c = '-' || c = '_' || c = '.' then c else '_')

/-- The output file name: the sanitized part number, with ".pdf"
appended unless the lower-cased sanitized name already ends in it. -/
def pdfName (pn : Str) : Str :=
  let s := sanitizeName pn
  if endsWithSeq (lowerSeq s) (".pdf".toList) then s else s ++ ".pdf".toList

/-- The content-type acceptance test of the source: the lower-cased
declared type must contain "pdf" or "application/octet-stream". -/
def isPdfContentType (ct : Str) : Bool :=
  containsSeq ("pdf".toList) (lowerSeq ct) ||
    containsSeq ("application/octet-stream".toList) (lowerSeq ct)

/-- The retry loop of download_direct_pdf.  remaining counts the
attempts still allowed (initially retry_count), idx is the index of the
current attempt.  A netFail on the last attempt returns the failure
message carrying the last error; a netFail earlier sleeps
2^idx + jitter(idx) and retries.  A response with an unacceptable
content type returns immediately with no retry and no write.  An
acceptable response writes the file: completely on success, partially
(flag false) when the body transfer raises, in which case the attempt is
retried or, on the last attempt, the failure is returned. -/
def dlGo (oracle : Nat → NetAttempt) (jit : Nat → Rat) (url path : Str) :
    Nat → Nat → FS → List Rat → DlOut
  | 0, idx, fs, sleeps => ⟨false, .unknownError, none, none, fs, idx, sleeps⟩
  | remaining + 1, idx, fs, sleeps =>
    match oracle idx with
    | .netFail e =>
      if remaining = 0 then
        ⟨false, .failedAfterRetries (idx + 1) e, none, none, fs, idx + 1, sleeps⟩
      else
        dlGo oracle jit url path remaining (idx + 1) fs (sleeps ++ [2 ^ idx + jit idx])
    | .resp ct bodyErr =>
      if isPdfContentType ct then
        match bodyErr with
        | none => ⟨true, .downloaded, some path, some url, fsSet fs path true, idx + 1, sleeps⟩
        | some e =>
          if remaining = 0 then
            ⟨false, .failedAfterRetries (idx + 1) e, none, none, fsSet fs path false, idx + 1, sleeps⟩
          else
            dlGo oracle jit url path remaining (idx + 1) (fsSet fs path false)
              (sleeps ++ [2 ^ idx + jit idx])
      else
        ⟨false, .notPdf ct, none, none, fs, idx + 1, sleeps⟩

/-- download_direct_pdf: sanitize the name, short-circuit with success
when the target file already exists (performing no network attempt),
otherwise run the retry loop. -/
def downloadDirectPdf (retryCount : Nat) (oracle : Nat → NetAttempt) (jit : Nat → Rat)
    (fs : FS) (url pn : Str) : DlOut :=
  let filename := pdfName pn
  match fsLookup fs filename with
  | some _ => ⟨true, .alreadyExists, some filename, some url, fs, 0, []⟩
  | none => dlGo oracle jit url filename retryCount 0 fs []

/-- The default retry_count of the DatasheetDownloader constructor. -/
def defaultRetryCount : Nat := 3

/-! ## 4.4 Candidate Ranker (_try_google_search, lines 584-624)

The source walks the discovered hrefs once, skipping falsy hrefs and
hrefs containing "googleusercontent" or "webcache", and appends each
remaining one to manufacturer_pdfs or other_pdfs depending on whether
any entry of the static manufacturer_domains list occurs inside the
netloc of the URL, finally concatenating the two lists.  The netloc
computation follows urllib.parse.urlparse: strip a leading scheme (an
alphabetic character followed by scheme characters, up to a colon), then
the netloc is present only after a leading "//" and extends to the next
"/", "?" or "#". -/

/-- The manufacturer_domains list of the source, in its literal order. -/
def manufacturer_domains : List Str :=
  ["ti.com".toList, "analog.com".toList, "nxp.com".toList, "microchip.com".toList,
   "st.com".toList, "infineon.com".toList, "vishay.com".toList, "rohm.com".toList,
   "toshiba.com".toList, "diodes.com".toList, "onsemi.com".toList,
   "maximintegrated.com".toList, "renesas.com".toList, "issi.com".toList,
   "cypress.com".toList, "silabs.com".toList, "xilinx.com".toList, "intel.com".toList,
   "amd.com".toList, "skyworksinc.com".toList, "nexperia.com".toList,
   "latticesemi.com".toList,
   "mouser.com".toList, "digikey.com".toList, "arrow.com".toList,
   "futureelectronics.com".toList,
   "newark.com".toList, "farnell.com".toList, "element14.com".toList, "avnet.com".toList,
   "rs-online.com".toList, "tme.eu".toList, "reichelt.com".toList, "lcsc.com".toList,
   "alldatasheet.com".toList, "datasheetq.com".toList, "datasheet.octopart.com".toList,
   "datasheets360.com".toList, "datasheetspdf.com".toList, "digchip.com".toList]

/-- Characters urllib allows inside a URL scheme after its leading
letter. -/
def schemeChar (c : Char) : Bool :=
  c.isAlpha || c.isDigit || c = '+' || c = '-' || c = '.'

/-- Strip a leading scheme as urllib.parse.urlsplit does: when a colon
exists, the text before it is nonempty, begins with a letter and
consists of scheme characters, the scheme and the colon are removed;
otherwise the URL is unchanged. -/
def removeScheme (url : Str) : Str :=
  let pre := url.takeWhile (fun c => !(c == ':'))
  if pre.length < url.length ∧ pre ≠ [] ∧
      (pre.headD ' ').isAlpha = true ∧ pre.all schemeChar = true then
    url.drop (pre.length + 1)
  else url

/-- urllib.parse.urlparse(url).netloc for the URL shapes this program
meets: the text between a leading "//" (after any scheme) and the next
"/", "?" or "#"; empty when the remainder does not start with "//". -/
def netlocOf (url : Str) : Str :=
  match removeScheme url with
  | c1 :: c2 :: r =>
    if c1 = '/' ∧ c2 = '/' then
      r.takeWhile (fun c => !(c == '/' || c == '?' || c == '#'))
    else []
  | _ => []

/-- The is_manufacturer test of the source: some allow-list entry occurs
inside the netloc of the URL. -/
def isManufacturerUrl (u : Str) : Bool :=
  manufacturer_domains.any (fun d => containsSeq d (netlocOf u))

/-- The skip test of the source loop: falsy href, or an href containing
"googleusercontent" or "webcache" (a search-engine cache or proxy
link). -/
def skipLink (u : Str) : Bool :=
  u.isEmpty || containsSeq ("googleusercontent".toList) u ||
    containsSeq ("webcache".toList) u

/-- The single pass of the source that builds manufacturer_pdfs and
other_pdfs, preserving input order inside each list. -/
def partitionLinks : List Str → List Str × List Str
  | [] => ([], [])
  | u :: rest =>
    let mo := partitionLinks rest
    if skipLink u then mo
    else if isManufacturerUrl u then (u :: mo.1, mo.2)
    else (mo.1, u :: mo.2)

/-- prioritized_pdfs = manufacturer_pdfs + other_pdfs. -/
def rankCandidates (links : List Str) : List Str :=
  (partitionLinks links).1 ++ (partitionLinks links).2

/-! ## 4.5 The candidate attempt loop (_try_google_search,
lines 631-676)

The loop walks the first 10 ranked candidates, skipping URLs already
tried, downloads each one (always to the file name derived from the one
part number of the search), classifies a successful download, returns
the file path and URL at the first accepted verdict, and otherwise
deletes the rejected file and continues.  The classifier verdict is
abstracted as a predicate on the candidate URL, since the downloaded
content is a function of the URL. -/

def tryCandidatesLoop (rc : Nat) (dl : Str → Nat → NetAttempt) (jit : Str → Nat → Rat)
    (accept : Str → Bool) (pn : Str) :
    List Str → List Str → FS → Option (Str × Str) × FS
  | [], _, fs => (none, fs)
  | u :: rest, tried, fs =>
    if u ∈ tried then tryCandidatesLoop rc dl jit accept pn rest tried fs
    else
      let r := downloadDirectPdf rc (dl u) (jit u) fs u pn
      if r.success then
        match r.filepath with
        | some p =>
          if accept u then (some (p, u), r.fs)
          else tryCandidatesLoop rc dl jit accept pn rest (tried ++ [u]) (fsRemove r.fs p)
        | none => tryCandidatesLoop rc dl jit accept pn rest (tried ++ [u]) r.fs
      else tryCandidatesLoop rc dl jit accept pn rest (tried ++ [u]) r.fs

/-- The whole attempt phase: rank, truncate to 10, run the loop with an
empty tried list. -/
def attemptCandidates (rc : Nat) (dl : Str → Nat → NetAttempt) (jit : Str → Nat → Rat)
    (accept : Str → Bool) (pn : Str) (links : List Str) (fs : FS) :
    Option (Str × Str) × FS :=
  tryCandidatesLoop rc dl jit accept pn ((rankCandidates links).take 10) [] fs

/-! ## Helper lemmas -/

theorem find?_append_false {α : Type} (p : α → Bool) :
    ∀ l1 l2 : List α, (∀ e ∈ l1, p e = false) → (l1 ++ l2).find? p = l2.find? p
  | [], _, _ => rfl
  | a :: l1, l2, h => by
    have ha : p a = false := h a (List.mem_cons_self a l1)
    rw [List.cons_append, List.find?_cons_of_neg _ (by simp [ha]),
      find?_append_false p l1 l2 (fun e he => h e (List.mem_cons_of_mem a he))]

theorem append_not_empty (l s : Str) (h : s ≠ []) : (l ++ s).isEmpty = false := by
  cases l with
  | nil =>
    cases s with
    | nil => exact absurd rfl h
    | cons c cs => rfl
  | cons a as => rfl

/-! ## Claim theorems -/

/-- C1: For every part number whose prefix appears in the static
manufacturer prefix table, _identify_manufacturer returns the mapped
manufacturer key, and for every other part number it returns none;
matching uses the lower-cased first 3 characters of the part number,
checked in table iteration order with the first startswith match
winning.  The function is a total Lean function, hence never raises and
deterministic. -/
theorem identify_manufacturer_first_match (pn : Str) :
    (∀ l1 p m l2, prefix_map = l1 ++ (p, m) :: l2 →
        (∀ e ∈ l1, entryMatches pn e = false) → entryMatches pn (p, m) = true →
        identifyManufacturer pn = some m)
    ∧ ((∀ e ∈ prefix_map, entryMatches pn e = false) → identifyManufacturer pn = none) := by
  constructor
  · intro l1 p m l2 htab hfalse htrue
    unfold identifyManufacturer
    rw [htab, find?_append_false _ l1 _ hfalse, List.find?_cons_of_pos _ htrue]
    rfl
  · intro hall
    unfold identifyManufacturer
    rw [List.find?_eq_none.mpr (fun e he => by simp [hall e he])]
    rfl

theorem identify_manufacturer_first_match_witness :
    identifyManufacturer ("LM358".toList) = some ("ti".toList) ∧
    identifyManufacturer ("XYZ999".toList) = none := by
  constructor
  · exact (identify_manufacturer_first_match ("LM358".toList)).1 []
      ("lm".toList) ("ti".toList) (prefix_map.tail) (by rfl)
      (fun e he => absurd he (List.not_mem_nil e)) (by decide)
  · exact (identify_manufacturer_first_match ("XYZ999".toList)).2 (by decide)

/-- C10: _identify_manufacturer depends only on the lower-cased first 3
characters of its input; consequently the matching table entry always
has a key of at most 3 characters, so the entries with keys irfp and
atmega can never themselves be the matching entry. -/
theorem identify_manufacturer_pref3_only :
    (∀ s t : Str, partPref3 s = partPref3 t →
        identifyManufacturer s = identifyManufacturer t)
    ∧ (∀ (s : Str) (e : Str × Str), prefix_map.find? (entryMatches s) = some e →
        e.1.length ≤ 3 ∧ e.1 ≠ "irfp".toList ∧ e.1 ≠ "atmega".toList) := by
  constructor
  · intro s t h
    have hfun : entryMatches s = entryMatches t := by
      funext e
      simp [entryMatches, h]
    simp [identifyManufacturer, hfun]
  · intro s e hfind
    have hmatch : entryMatches s e = true := List.find?_some hfind
    have hlen : e.1.length ≤ (partPref3 s).length := startsWithSeq_length hmatch
    have hlen3 : (partPref3 s).length ≤ 3 := by
      simp only [partPref3, List.length_take]
      exact min_le_left _ _
    have h3 : e.1.length ≤ 3 := le_trans hlen hlen3
    refine ⟨h3, ?_, ?_⟩
    · intro hh
      rw [hh] at h3
      simp at h3
    · intro hh
      rw [hh] at h3
      simp at h3

theorem identify_manufacturer_pref3_only_witness :
    identifyManufacturer ("LM358".toList) = identifyManufacturer ("lm3abc".toList) ∧
    ("irf".toList).length ≤ 3 := by
  constructor
  · exact identify_manufacturer_pref3_only.1 ("LM358".toList) ("lm3abc".toList) (by decide)
  · exact (identify_manufacturer_pref3_only.2 ("IRFP9240".toList)
      ("irf".toList, "infineon".toList) (by decide)).1

/-- C7: search_by_part_number generates its query strategies once, in
the fixed order (a) part plus datasheet filetype:pdf, (b) the
manufacturer-specific query, (c) part plus technical documentation
filetype:pdf, (d) part plus specifications datasheet pdf, (e) part plus
datasheet; exactly 4 strategies when no manufacturer is identified (the
manufacturer-specific one omitted), exactly 5 otherwise. -/
theorem search_strategies_order (pn : Str) :
    (identifyManufacturer pn = none →
      searchStrategies pn =
        [pn ++ " datasheet filetype:pdf".toList,
         pn ++ " technical documentation filetype:pdf".toList,
         pn ++ " specifications datasheet pdf".toList,
         pn ++ " datasheet".toList] ∧
      (searchStrategies pn).length = 4)
    ∧ (∀ m, identifyManufacturer pn = some m →
        ∃ q, getManufacturerSpecificSearch pn = some q ∧
          searchStrategies pn =
            [pn ++ " datasheet filetype:pdf".toList,
             q,
             pn ++ " technical documentation filetype:pdf".toList,
             pn ++ " specifications datasheet pdf".toList,
             pn ++ " datasheet".toList] ∧
          (searchStrategies pn).length = 5) := by
  have e1 : (pn ++ " datasheet filetype:pdf".toList).isEmpty = false :=
    append_not_empty _ _ (by decide)
  have e3 : (pn ++ " technical documentation filetype:pdf".toList).isEmpty = false :=
    append_not_empty _ _ (by decide)
  have e4 : (pn ++ " specifications datasheet pdf".toList).isEmpty = false :=
    append_not_empty _ _ (by decide)
  have e5 : (pn ++ " datasheet".toList).isEmpty = false :=
    append_not_empty _ _ (by decide)
  constructor
  · intro h
    have hg : getManufacturerSpecificSearch pn = none := by
      simp [getManufacturerSpecificSearch, h]
    have heq : searchStrategies pn =
        [pn ++ " datasheet filetype:pdf".toList,
         pn ++ " technical documentation filetype:pdf".toList,
         pn ++ " specifications datasheet pdf".toList,
         pn ++ " datasheet".toList] := by
      simp [searchStrategies, truthyFilter, hg, e1, e3, e4, e5]
    exact ⟨heq, by rw [heq]; rfl⟩
  · intro m h
    have hg : getManufacturerSpecificSearch pn =
        some (pn ++ " ".toList ++
          (((manufacturer_names.find? (fun e => e.1 == m)).map (fun e => e.2)).getD m) ++
          " datasheet filetype:pdf".toList) := by
      simp [getManufacturerSpecificSearch, h]
    have e2 : (pn ++ " ".toList ++
        (((manufacturer_names.find? (fun e => e.1 == m)).map (fun e => e.2)).getD m) ++
        " datasheet filetype:pdf".toList).isEmpty = false :=
      append_not_empty _ _ (by decide)
    refine ⟨_, hg, ?_, ?_⟩
    · simp [searchStrategies, truthyFilter, hg, e1, e2, e3, e4, e5]
    · simp [searchStrategies, truthyFilter, hg, e1, e2, e3, e4, e5]

theorem search_strategies_order_witness :
    (searchStrategies ("XYZ999".toList)).length = 4 ∧
    (searchStrategies ("LM358".toList)).length = 5 := by
  constructor
  · exact ((search_strategies_order ("XYZ999".toList)).1 (by decide)).2
  · obtain ⟨q, hq, heq, hlen⟩ :=
      (search_strategies_order ("LM358".toList)).2 ("ti".toList) (by decide)
    exact hlen

theorem scanExclusion_mem : ∀ {ps : List Str} {t : Str}, scanExclusion ps = some t →
    t ∈ exclusionaryTerms ∧ ∃ p ∈ ps, containsSeq t (lowerSeq p) = true := by
  intro ps
  induction ps with
  | nil => intro t h; simp [scanExclusion] at h
  | cons p rest ih =>
    intro t h
    unfold scanExclusion at h
    cases hf : exclusionaryTerms.find? (fun t => containsSeq t (lowerSeq p)) with
    | some t' =>
      rw [hf] at h
      cases h
      have hc := List.find?_some hf
      simp only [] at hc
      exact ⟨List.mem_of_find?_eq_some hf, p, List.mem_cons_self p rest, hc⟩
    | none =>
      rw [hf] at h
      obtain ⟨hmem, q, hq, hc⟩ := ih h
      exact ⟨hmem, q, List.mem_cons_of_mem p hq, hc⟩

theorem scanExclusion_isSome : ∀ {ps : List Str},
    (∃ p ∈ ps, ∃ t ∈ exclusionaryTerms, containsSeq t (lowerSeq p) = true) →
    (scanExclusion ps).isSome = true := by
  intro ps
  induction ps with
  | nil => intro h; obtain ⟨p, hp, _⟩ := h; exact absurd hp (List.not_mem_nil p)
  | cons p rest ih =>
    intro h
    unfold scanExclusion
    cases hf : exclusionaryTerms.find? (fun t => containsSeq t (lowerSeq p)) with
    | some t' => rfl
    | none =>
      obtain ⟨q, hq, t, ht, hc⟩ := h
      rcases List.mem_cons.mp hq with hq | hq
      · subst hq
        have := List.find?_eq_none.mp hf t ht
        simp [hc] at this
      · exact ih ⟨q, hq, t, ht, hc⟩

/-- C2: a PDF that passes the existence, size, runtime-availability and
page-count gates and whose first min(5, pageCount) pages contain an
exclusion term is rejected, with an exclusion term found in those pages
as the reason, regardless of what page 1 contains (no hypothesis
restricts the inclusion terms of page 1): the exclusion scan takes
precedence over the inclusion check. -/
theorem classifier_exclusion_precedence (f : FileModel)
    (hd : f.onDisk = true)
    (hs1 : 50 * 1024 ≤ f.sizeBytes) (hs2 : f.sizeBytes ≤ 20000 * 1024)
    (hfitz : f.fitzAvailable = true)
    (hp1 : 3 ≤ f.pages.length) (hp2 : f.pages.length ≤ 200)
    (hex : ∃ p ∈ f.pages.take 5, ∃ t ∈ exclusionaryTerms,
      containsSeq t (lowerSeq p) = true) :
    (isLikelyDatasheet f).1 = false ∧
      ∃ t ∈ exclusionaryTerms, (isLikelyDatasheet f).2 = Reason.exclusionTerm t ∧
        ∃ p ∈ f.pages.take 5, containsSeq t (lowerSeq p) = true := by
  obtain ⟨t, ht⟩ := Option.isSome_iff_exists.mp (scanExclusion_isSome hex)
  obtain ⟨hmem, hin⟩ := scanExclusion_mem ht
  have h1 : ¬ (f.sizeBytes < 50 * 1024) := by omega
  have h2 : ¬ (20000 * 1024 < f.sizeBytes) := by omega
  have h3 : ¬ (f.pages.length < 3) := by omega
  have h4 : ¬ (200 < f.pages.length) := by omega
  have hres : isLikelyDatasheet f = (false, Reason.exclusionTerm t) := by
    simp [isLikelyDatasheet, hd, hfitz, h1, h2, h3, h4, ht]
  rw [hres]
  exact ⟨rfl, t, hmem, rfl, hin⟩

def c2File : FileModel :=
  { onDisk := true
    sizeBytes := 800 * 1024
    fitzAvailable := true
    pages := "Datasheet Features".toList :: "User Guide".toList ::
      List.replicate 8 ("x".toList)
    metaTitle := none }

theorem classifier_exclusion_precedence_witness :
    (isLikelyDatasheet c2File).1 = false ∧
      ∃ t ∈ exclusionaryTerms, (isLikelyDatasheet c2File).2 = Reason.exclusionTerm t ∧
        ∃ p ∈ c2File.pages.take 5, containsSeq t (lowerSeq p) = true :=
  classifier_exclusion_precedence c2File (by decide) (by decide) (by decide)
    (by decide) (by decide) (by decide) (by decide)

/-- C3: for an existing file, a size below 50 kB yields the too-small
rejection and a size above 20000 kB the too-large rejection, whatever
the pages, metadata and runtime availability are (they appear in no
hypothesis), so only files within the bounds reach content
inspection. -/
theorem classifier_size_gate (f : FileModel) (hd : f.onDisk = true) :
    (f.sizeBytes < 50 * 1024 → isLikelyDatasheet f = (false, Reason.tooSmall))
    ∧ (20000 * 1024 < f.sizeBytes → isLikelyDatasheet f = (false, Reason.tooLarge))
    ∧ ((f.sizeBytes < 50 * 1024 ∨ 20000 * 1024 < f.sizeBytes) →
        isLikelyDatasheet f = (false, Reason.tooSmall) ∨
          isLikelyDatasheet f = (false, Reason.tooLarge)) := by
  refine ⟨?_, ?_, ?_⟩
  · intro h
    simp [isLikelyDatasheet, hd, h]
  · intro h
    have h1 : ¬ (f.sizeBytes < 50 * 1024) := by omega
    simp [isLikelyDatasheet, hd, h, h1]
  · intro h
    rcases h with h | h
    · left
      simp [isLikelyDatasheet, hd, h]
    · right
      have h1 : ¬ (f.sizeBytes < 50 * 1024) := by omega
      simp [isLikelyDatasheet, hd, h, h1]

def c3File : FileModel :=
  { onDisk := true
    sizeBytes := 30 * 1024
    fitzAvailable := true
    pages := "Datasheet Features absolute maximum ratings".toList ::
      List.replicate 9 ("x".toList)
    metaTitle := some ("datasheet".toList) }

theorem classifier_size_gate_witness :
    isLikelyDatasheet c3File = (false, Reason.tooSmall) :=
  (classifier_size_gate c3File (by decide)).1 (by decide)

theorem fsLookup_set (fs : FS) (p : Str) (c : Bool) :
    fsLookup (fsSet fs p c) p = some c := by
  simp [fsLookup, fsSet, List.find?]

theorem fsLookup_remove (fs : FS) (p : Str) :
    fsLookup (fsRemove fs p) p = none := by
  induction fs with
  | nil => rfl
  | cons e rest ih =>
    by_cases h : e.1 == p
    · simp only [fsRemove, List.filter, h] at ih ⊢
      exact ih
    · simp only [Bool.not_eq_true] at h
      simp only [fsRemove, List.filter, h, fsLookup, List.find?] at ih ⊢
      exact ih

theorem dlGo_success_shape (oracle : Nat → NetAttempt) (jit : Nat → Rat) (url path : Str) :
    ∀ (remaining idx : Nat) (fs : FS) (sleeps : List Rat),
      (dlGo oracle jit url path remaining idx fs sleeps).success = true →
      (dlGo oracle jit url path remaining idx fs sleeps).msg = DlMsg.downloaded ∧
      (dlGo oracle jit url path remaining idx fs sleeps).filepath = some path ∧
      fsLookup (dlGo oracle jit url path remaining idx fs sleeps).fs path = some true := by
  intro remaining
  induction remaining with
  | zero => intro idx fs sleeps h; simp [dlGo] at h
  | succ r ih =>
    intro idx fs sleeps h
    cases horacle : oracle idx with
    | netFail e =>
      rw [dlGo, horacle] at h ⊢
      by_cases hr : r = 0
      · simp [hr] at h
      · simp only [if_neg hr] at h ⊢
        exact ih _ _ _ h
    | resp ct bodyErr =>
      rw [dlGo, horacle] at h ⊢
      by_cases hct : isPdfContentType ct = true
      · simp only [if_pos hct] at h ⊢
        cases bodyErr with
        | none => exact ⟨rfl, rfl, fsLookup_set fs path true⟩
        | some e =>
          by_cases hr : r = 0
          · simp [hr] at h
          · simp only [if_neg hr] at h ⊢
            exact ih _ _ _ h
      · simp only [if_neg hct] at h
        simp at h

theorem dlGo_msg_downloaded (oracle : Nat → NetAttempt) (jit : Nat → Rat) (url path : Str) :
    ∀ (remaining idx : Nat) (fs : FS) (sleeps : List Rat),
      (dlGo oracle jit url path remaining idx fs sleeps).msg = DlMsg.downloaded →
      (dlGo oracle jit url path remaining idx fs sleeps).success = true := by
  intro remaining
  induction remaining with
  | zero => intro idx fs sleeps h; simp [dlGo] at h
  | succ r ih =>
    intro idx fs sleeps h
    cases horacle : oracle idx with
    | netFail e =>
      rw [dlGo, horacle] at h ⊢
      by_cases hr : r = 0
      · simp [hr] at h
      · simp only [if_neg hr] at h ⊢
        exact ih _ _ _ h
    | resp ct bodyErr =>
      rw [dlGo, horacle] at h ⊢
      by_cases hct : isPdfContentType ct = true
      · simp only [if_pos hct] at h ⊢
        cases bodyErr with
        | none => rfl
        | some e =>
          by_cases hr : r = 0
          · simp [hr] at h
          · simp only [if_neg hr] at h ⊢
            exact ih _ _ _ h
      · simp only [if_neg hct] at h
        simp at h

theorem dlGo_fail_fs (oracle : Nat → NetAttempt) (jit : Nat → Rat) (url path : Str) :
    ∀ (remaining idx : Nat) (fs : FS) (sleeps : List Rat),
      (dlGo oracle jit url path remaining idx fs sleeps).success = false →
      (dlGo oracle jit url path remaining idx fs sleeps).fs = fs ∨
        fsLookup (dlGo oracle jit url path remaining idx fs sleeps).fs path = some false := by
  intro remaining
  induction remaining with
  | zero => intro idx fs sleeps _; exact Or.inl rfl
  | succ r ih =>
    intro idx fs sleeps h
    cases horacle : oracle idx with
    | netFail e =>
      rw [dlGo, horacle] at h ⊢
      by_cases hr : r = 0
      · simp only [if_pos hr]
        exact Or.inl trivial
      · simp only [if_neg hr] at h ⊢
        exact ih _ _ _ h
    | resp ct bodyErr =>
      rw [dlGo, horacle] at h ⊢
      by_cases hct : isPdfContentType ct = true
      · simp only [if_pos hct] at h ⊢
        cases bodyErr with
        | none => simp at h
        | some e =>
          by_cases hr : r = 0
          · simp only [if_pos hr]
            exact Or.inr (fsLookup_set fs path false)
          · simp only [if_neg hr] at h ⊢
            rcases ih (idx + 1) (fsSet fs path false) (sleeps ++ [2 ^ idx + jit idx]) h
              with hh | hh
            · exact Or.inr (by rw [hh]; exact fsLookup_set fs path false)
            · exact Or.inr hh
      · simp only [if_neg hct]
        exact Or.inl trivial

theorem download_success_lookup (rc : Nat) (oracle : Nat → NetAttempt) (jit : Nat → Rat)
    (fs : FS) (url pn : Str)
    (h : (downloadDirectPdf rc oracle jit fs url pn).success = true) :
    (downloadDirectPdf rc oracle jit fs url pn).filepath = some (pdfName pn) ∧
    (fsLookup (downloadDirectPdf rc oracle jit fs url pn).fs (pdfName pn)).isSome = true := by
  cases hl : fsLookup fs (pdfName pn) with
  | some b =>
    have hres : downloadDirectPdf rc oracle jit fs url pn =
        ⟨true, DlMsg.alreadyExists, some (pdfName pn), some url, fs, 0, []⟩ := by
      simp only [downloadDirectPdf, hl]
    rw [hres]
    exact ⟨rfl, by rw [hl]; rfl⟩
  | none =>
    have hres : downloadDirectPdf rc oracle jit fs url pn =
        dlGo oracle jit url (pdfName pn) rc 0 fs [] := by
      simp only [downloadDirectPdf, hl]
    rw [hres] at h ⊢
    obtain ⟨-, hfp, hfs⟩ := dlGo_success_shape oracle jit url (pdfName pn) rc 0 fs [] h
    exact ⟨hfp, by rw [hfs]; rfl⟩

/-- C4: download_direct_pdf is idempotent in the destination name: when
a file already exists at the sanitized target path the call returns
success immediately, performs zero network attempts and leaves the
filesystem unchanged (never overwriting the file); consequently a second
call with the same destination name after any successful call succeeds
with zero network attempts and an unchanged filesystem, so across the
two calls network access happens at most in the first. -/
theorem download_idempotent (rc : Nat) (o1 o2 : Nat → NetAttempt) (j1 j2 : Nat → Rat)
    (fs : FS) (u1 u2 pn : Str) :
    ((fsLookup fs (pdfName pn)).isSome = true →
      downloadDirectPdf rc o1 j1 fs u1 pn =
        ⟨true, DlMsg.alreadyExists, some (pdfName pn), some u1, fs, 0, []⟩)
    ∧ ((downloadDirectPdf rc o1 j1 fs u1 pn).success = true →
        (downloadDirectPdf rc o2 j2 (downloadDirectPdf rc o1 j1 fs u1 pn).fs u2 pn).success
            = true ∧
          (downloadDirectPdf rc o2 j2 (downloadDirectPdf rc o1 j1 fs u1 pn).fs u2 pn).calls
            = 0 ∧
          (downloadDirectPdf rc o2 j2 (downloadDirectPdf rc o1 j1 fs u1 pn).fs u2 pn).fs
            = (downloadDirectPdf rc o1 j1 fs u1 pn).fs) := by
  constructor
  · intro h
    obtain ⟨b, hb⟩ := Option.isSome_iff_exists.mp h
    simp only [downloadDirectPdf, hb]
  · intro h
    obtain ⟨-, hfs⟩ := download_success_lookup rc o1 j1 fs u1 pn h
    obtain ⟨b, hb⟩ := Option.isSome_iff_exists.mp hfs
    have hres : downloadDirectPdf rc o2 j2 (downloadDirectPdf rc o1 j1 fs u1 pn).fs u2 pn =
        ⟨true, DlMsg.alreadyExists, some (pdfName pn), some u2,
          (downloadDirectPdf rc o1 j1 fs u1 pn).fs, 0, []⟩ := by
      generalize (downloadDirectPdf rc o1 j1 fs u1 pn).fs = fs1 at hb ⊢
      simp only [downloadDirectPdf, hb]
    rw [hres]
    exact ⟨rfl, rfl, rfl⟩

def c4Fs : FS := [("LM358.pdf".toList, true)]

theorem download_idempotent_witness :
    downloadDirectPdf 3 (fun _ => NetAttempt.netFail []) (fun _ => (0 : Rat)) c4Fs
        ("http://x/a.pdf".toList) ("LM358".toList) =
      ⟨true, DlMsg.alreadyExists, some ("LM358.pdf".toList),
        some ("http://x/a.pdf".toList), c4Fs, 0, []⟩ ∧
    (downloadDirectPdf 3 (fun _ => NetAttempt.netFail []) (fun _ => (0 : Rat))
        (downloadDirectPdf 3 (fun _ => NetAttempt.netFail []) (fun _ => (0 : Rat)) c4Fs
          ("http://x/a.pdf".toList) ("LM358".toList)).fs
        ("http://x/b.pdf".toList) ("LM358".toList)).calls = 0 := by
  constructor
  · exact (download_idempotent 3 (fun _ => NetAttempt.netFail [])
      (fun _ => NetAttempt.netFail []) (fun _ => (0 : Rat)) (fun _ => (0 : Rat)) c4Fs
      ("http://x/a.pdf".toList) ("http://x/b.pdf".toList) ("LM358".toList)).1 (by decide)
  · exact ((download_idempotent 3 (fun _ => NetAttempt.netFail [])
      (fun _ => NetAttempt.netFail []) (fun _ => (0 : Rat)) (fun _ => (0 : Rat)) c4Fs
      ("http://x/a.pdf".toList) ("http://x/b.pdf".toList) ("LM358".toList)).2
      (by decide)).2.1

theorem dlGo_all_netFail (oracle : Nat → NetAttempt) (jit : Nat → Rat) (url path : Str)
    (errs : Nat → Str) :
    ∀ (remaining idx : Nat) (fs : FS) (sleeps : List Rat),
      (∀ i, oracle i = NetAttempt.netFail (errs i)) → 1 ≤ remaining →
      dlGo oracle jit url path remaining idx fs sleeps =
        ⟨false, DlMsg.failedAfterRetries (idx + remaining) (errs (idx + remaining - 1)),
          none, none, fs, idx + remaining,
          sleeps ++ (List.range (remaining - 1)).map (fun i => 2 ^ (idx + i) + jit (idx + i))⟩ := by
  intro remaining
  induction remaining with
  | zero => intro idx fs sleeps _ hr; omega
  | succ r ih =>
    intro idx fs sleeps hall _
    rw [dlGo, hall idx]
    by_cases hr : r = 0
    · subst hr
      simp
    · simp only [if_neg hr]
      rw [ih (idx + 1) fs (sleeps ++ [2 ^ idx + jit idx]) hall (by omega)]
      have h1 : idx + 1 + r = idx + (r + 1) := by omega
      have h3 : sleeps ++ [2 ^ idx + jit idx] ++
          (List.range (r - 1)).map (fun i => (2 : Rat) ^ (idx + 1 + i) + jit (idx + 1 + i)) =
          sleeps ++ (List.range (r + 1 - 1)).map (fun i => (2 : Rat) ^ (idx + i) + jit (idx + i)) := by
        obtain ⟨r', rfl⟩ : ∃ r', r = r' + 1 := ⟨r - 1, by omega⟩
        rw [List.append_assoc]
        congr 1
        rw [Nat.add_sub_cancel, Nat.add_sub_cancel, List.range_succ_eq_map, List.map_cons,
          List.map_map]
        simp only [Nat.add_zero, List.singleton_append, List.cons.injEq, true_and,
          Function.comp]
        apply List.map_congr_left
        intro a _
        have ha : idx + 1 + a = idx + (a + 1) := by omega
        simp [Function.comp, ha]
      rw [h1, h3]

theorem dlGo_bad_type_after_netFail (oracle : Nat → NetAttempt) (jit : Nat → Rat)
    (url path ct : Str) (be : Option Str) (errs : Nat → Str)
    (hct : isPdfContentType ct = false) :
    ∀ (k remaining idx : Nat) (fs : FS) (sleeps : List Rat),
      (∀ i, i < k → oracle (idx + i) = NetAttempt.netFail (errs (idx + i))) →
      oracle (idx + k) = NetAttempt.resp ct be → k < remaining →
      dlGo oracle jit url path remaining idx fs sleeps =
        ⟨false, DlMsg.notPdf ct, none, none, fs, idx + k + 1,
          sleeps ++ (List.range k).map (fun i => 2 ^ (idx + i) + jit (idx + i))⟩ := by
  intro k
  induction k with
  | zero =>
    intro remaining idx fs sleeps _ hk hlt
    obtain ⟨r, rfl⟩ : ∃ r, remaining = r + 1 := ⟨remaining - 1, by omega⟩
    rw [Nat.add_zero] at hk
    rw [dlGo, hk]
    simp [hct]
  | succ k ih =>
    intro remaining idx fs sleeps hpre hk hlt
    obtain ⟨r, rfl⟩ : ∃ r, remaining = r + 1 := ⟨remaining - 1, by omega⟩
    have h0 : oracle idx = NetAttempt.netFail (errs idx) := by
      have := hpre 0 (by omega)
      rwa [Nat.add_zero] at this
    rw [dlGo, h0]
    have hr : ¬ r = 0 := by omega
    simp only [if_neg hr]
    rw [ih r (idx + 1) fs (sleeps ++ [2 ^ idx + jit idx])
      (fun i hi => by
        have := hpre (i + 1) (by omega)
        rwa [show idx + (i + 1) = idx + 1 + i from by omega] at this)
      (by rwa [show idx + 1 + k = idx + (k + 1) from by omega]) (by omega)]
    have h1 : idx + 1 + k + 1 = idx + (k + 1) + 1 := by omega
    have h3 : sleeps ++ [2 ^ idx + jit idx] ++
        (List.range k).map (fun i => (2 : Rat) ^ (idx + 1 + i) + jit (idx + 1 + i)) =
        sleeps ++ (List.range (k + 1)).map (fun i => (2 : Rat) ^ (idx + i) + jit (idx + i)) := by
      rw [List.append_assoc]
      congr 1
      rw [List.range_succ_eq_map, List.map_cons, List.map_map]
      simp only [Nat.add_zero, List.singleton_append, List.cons.injEq, true_and,
        Function.comp]
      apply List.map_congr_left
      intro a _
      have ha : idx + 1 + a = idx + (a + 1) := by omega
      simp [Function.comp, ha]
    rw [h1, h3]

/-- C5: download_direct_pdf verifies the declared content type contains
pdf or application/octet-stream before persisting anything; any other
content type is an immediate failure for that URL with no further
attempt and no filesystem change, while transport errors are retried up
to the configured retry count (default 3), sleeping
2^attempt + jitter(attempt) between attempts, where jitter models the
uniform(0, 1) sample of the source. -/
theorem download_content_type_and_retry (rc k : Nat) (oracle : Nat → NetAttempt)
    (jit : Nat → Rat) (errs : Nat → Str) (fs : FS) (url pn ct : Str) (be : Option Str)
    (h0 : fsLookup fs (pdfName pn) = none) :
    ((∀ i, i < k → oracle i = NetAttempt.netFail (errs i)) →
      oracle k = NetAttempt.resp ct be → isPdfContentType ct = false → k < rc →
      downloadDirectPdf rc oracle jit fs url pn =
        ⟨false, DlMsg.notPdf ct, none, none, fs, k + 1,
          (List.range k).map (fun i => 2 ^ i + jit i)⟩)
    ∧ ((∀ i, oracle i = NetAttempt.netFail (errs i)) → 1 ≤ rc →
      downloadDirectPdf rc oracle jit fs url pn =
        ⟨false, DlMsg.failedAfterRetries rc (errs (rc - 1)), none, none, fs, rc,
          (List.range (rc - 1)).map (fun i => 2 ^ i + jit i)⟩)
    ∧ defaultRetryCount = 3 := by
  have hdd : downloadDirectPdf rc oracle jit fs url pn =
      dlGo oracle jit url (pdfName pn) rc 0 fs [] := by
    simp only [downloadDirectPdf, h0]
  refine ⟨?_, ?_, rfl⟩
  · intro hpre hk hct hlt
    rw [hdd, dlGo_bad_type_after_netFail oracle jit url (pdfName pn) ct be errs hct k rc 0 fs []
      (fun i hi => by simpa using hpre i hi) (by simpa using hk) hlt]
    simp
  · intro hall h1
    rw [hdd, dlGo_all_netFail oracle jit url (pdfName pn) errs rc 0 fs [] hall h1]
    simp

def c5Oracle : Nat → NetAttempt := fun i =>
  if i = 0 then NetAttempt.netFail ("timeout".toList)
  else NetAttempt.resp ("text/html".toList) none

theorem download_content_type_and_retry_witness :
    (downloadDirectPdf 3 c5Oracle (fun _ => (0 : Rat)) []
      ("http://x/a.pdf".toList) ("LM358".toList)).msg =
        DlMsg.notPdf ("text/html".toList) ∧
    (downloadDirectPdf 3 c5Oracle (fun _ => (0 : Rat)) []
      ("http://x/a.pdf".toList) ("LM358".toList)).calls = 2 ∧
    (downloadDirectPdf 3 (fun _ => NetAttempt.netFail ("timeout".toList)) (fun _ => (0 : Rat)) []
      ("http://x/a.pdf".toList) ("LM358".toList)).msg =
        DlMsg.failedAfterRetries 3 ("timeout".toList) ∧
    (downloadDirectPdf 3 (fun _ => NetAttempt.netFail ("timeout".toList)) (fun _ => (0 : Rat)) []
      ("http://x/a.pdf".toList) ("LM358".toList)).sleeps = [1, 2] := by
  have h1 := (download_content_type_and_retry 3 1 c5Oracle (fun _ => (0 : Rat))
    (fun _ => "timeout".toList) [] ("http://x/a.pdf".toList) ("LM358".toList)
    ("text/html".toList) none rfl).1
    (fun i hi => by
      have hi0 : i = 0 := by omega
      subst hi0
      rfl)
    rfl rfl (by omega)
  have h2 := (download_content_type_and_retry 3 0 (fun _ => NetAttempt.netFail ("timeout".toList))
    (fun _ => (0 : Rat)) (fun _ => "timeout".toList) [] ("http://x/a.pdf".toList)
    ("LM358".toList) ("text/html".toList) none rfl).2.1 (fun i => rfl) (by omega)
  rw [h1, h2]
  refine ⟨rfl, rfl, rfl, by norm_num [List.range_succ]⟩

/-- Retriable failure of one HTTP attempt: a transport exception before
any write, or an acceptable response whose body transfer raises (both
are requests exceptions caught by the retry loop of the source). -/
def retriableAt (oracle : Nat → NetAttempt) (errs : Nat → Str) (i : Nat) : Prop :=
  oracle i = NetAttempt.netFail (errs i) ∨
    ∃ ct, oracle i = NetAttempt.resp ct (some (errs i)) ∧ isPdfContentType ct = true

theorem dlGo_all_retriable (oracle : Nat → NetAttempt) (jit : Nat → Rat) (url path : Str)
    (errs : Nat → Str) (hall : ∀ i, retriableAt oracle errs i) :
    ∀ (remaining idx : Nat) (fs : FS) (sleeps : List Rat), 1 ≤ remaining →
      (dlGo oracle jit url path remaining idx fs sleeps).success = false ∧
      (dlGo oracle jit url path remaining idx fs sleeps).msg =
        DlMsg.failedAfterRetries (idx + remaining) (errs (idx + remaining - 1)) ∧
      (dlGo oracle jit url path remaining idx fs sleeps).calls = idx + remaining := by
  intro remaining
  induction remaining with
  | zero => intro idx fs sleeps h; omega
  | succ r ih =>
    intro idx fs sleeps _
    rcases hall idx with h | ⟨ct, h, hct⟩
    · rw [dlGo, h]
      by_cases hr : r = 0
      · subst hr
        simp
      · simp only [if_neg hr]
        have hrec := ih (idx + 1) fs (sleeps ++ [2 ^ idx + jit idx]) (by omega)
        rw [show idx + (r + 1) = idx + 1 + r from by omega]
        exact hrec
    · rw [dlGo, h]
      simp only [if_pos hct]
      by_cases hr : r = 0
      · subst hr
        simp
      · simp only [if_neg hr]
        have hrec := ih (idx + 1) (fsSet fs path false) (sleeps ++ [2 ^ idx + jit idx]) (by omega)
        rw [show idx + (r + 1) = idx + 1 + r from by omega]
        exact hrec

def c6Oracle : Nat → NetAttempt := fun i =>
  if i = 0 then NetAttempt.resp ("application/pdf".toList) (some ("connection reset".toList))
  else NetAttempt.netFail ("timeout".toList)

/-- C6 counterexample: with a first attempt whose body transfer raises
midway (leaving a partially written file) and all retries failing, the
call returns failure as expected, but the partial file stays on disk
with its transfer incomplete, and a subsequent call with the same
destination name returns success for exactly that path, refuting the
claim that no call returns success for a path whose body transfer did
not complete, including a subsequent call after such a failure. -/
theorem download_partial_then_success_counterexample :
    (downloadDirectPdf 3 c6Oracle (fun _ => (0 : Rat)) [] ("http://x/a.pdf".toList)
      ("LM358".toList)).success = false ∧
    fsLookup (downloadDirectPdf 3 c6Oracle (fun _ => (0 : Rat)) [] ("http://x/a.pdf".toList)
      ("LM358".toList)).fs ("LM358.pdf".toList) = some false ∧
    (downloadDirectPdf 3 (fun _ => NetAttempt.netFail []) (fun _ => (0 : Rat))
      (downloadDirectPdf 3 c6Oracle (fun _ => (0 : Rat)) [] ("http://x/a.pdf".toList)
        ("LM358".toList)).fs
      ("http://x/a.pdf".toList) ("LM358".toList)).success = true ∧
    (downloadDirectPdf 3 (fun _ => NetAttempt.netFail []) (fun _ => (0 : Rat))
      (downloadDirectPdf 3 c6Oracle (fun _ => (0 : Rat)) [] ("http://x/a.pdf".toList)
        ("LM358".toList)).fs
      ("http://x/a.pdf".toList) ("LM358".toList)).filepath = some ("LM358.pdf".toList) :=
  ⟨rfl, rfl, rfl, rfl⟩

/-- C6 (amended): after exhausting all retry attempts,
download_direct_pdf returns failure carrying the attempt count and the
last error message, and a call that performed the transfer itself
reports success only with a completely written file at the target path;
however a partially written file left behind by a failed call is
reported as success by a subsequent call with the same destination name,
through the already-exists short-circuit. -/
theorem download_failure_no_partial_success (rc : Nat) (oracle : Nat → NetAttempt)
    (jit : Nat → Rat) (errs : Nat → Str) (fs : FS) (url pn : Str) :
    (fsLookup fs (pdfName pn) = none → (∀ i, retriableAt oracle errs i) → 1 ≤ rc →
      (downloadDirectPdf rc oracle jit fs url pn).success = false ∧
      (downloadDirectPdf rc oracle jit fs url pn).msg =
        DlMsg.failedAfterRetries rc (errs (rc - 1)))
    ∧ ((downloadDirectPdf rc oracle jit fs url pn).msg = DlMsg.downloaded →
        (downloadDirectPdf rc oracle jit fs url pn).success = true ∧
        fsLookup (downloadDirectPdf rc oracle jit fs url pn).fs (pdfName pn) = some true)
    ∧ (fsLookup fs (pdfName pn) = some false →
        downloadDirectPdf rc oracle jit fs url pn =
          ⟨true, DlMsg.alreadyExists, some (pdfName pn), some url, fs, 0, []⟩) := by
  refine ⟨?_, ?_, ?_⟩
  · intro h0 hall h1
    have hdd : downloadDirectPdf rc oracle jit fs url pn =
        dlGo oracle jit url (pdfName pn) rc 0 fs [] := by
      simp only [downloadDirectPdf, h0]
    rw [hdd]
    have hrun := dlGo_all_retriable oracle jit url (pdfName pn) errs hall rc 0 fs [] h1
    rw [Nat.zero_add] at hrun
    exact ⟨hrun.1, hrun.2.1⟩
  · intro hmsg
    cases hl : fsLookup fs (pdfName pn) with
    | some b =>
      have hdd : downloadDirectPdf rc oracle jit fs url pn =
          ⟨true, DlMsg.alreadyExists, some (pdfName pn), some url, fs, 0, []⟩ := by
        simp only [downloadDirectPdf, hl]
      rw [hdd] at hmsg
      simp at hmsg
    | none =>
      have hdd : downloadDirectPdf rc oracle jit fs url pn =
          dlGo oracle jit url (pdfName pn) rc 0 fs [] := by
        simp only [downloadDirectPdf, hl]
      rw [hdd] at hmsg ⊢
      have hsucc := dlGo_msg_downloaded oracle jit url (pdfName pn) rc 0 fs [] hmsg
      obtain ⟨-, -, hfs⟩ := dlGo_success_shape oracle jit url (pdfName pn) rc 0 fs [] hsucc
      exact ⟨hsucc, hfs⟩
  · intro h
    simp only [downloadDirectPdf, h]

theorem download_failure_no_partial_success_witness :
    (downloadDirectPdf 3 c6Oracle (fun _ => (0 : Rat)) [] ("http://x/a.pdf".toList)
      ("LM358".toList)).success = false ∧
    (downloadDirectPdf 3 c6Oracle (fun _ => (0 : Rat)) [] ("http://x/a.pdf".toList)
      ("LM358".toList)).msg = DlMsg.failedAfterRetries 3 ("timeout".toList) ∧
    downloadDirectPdf 3 c6Oracle (fun _ => (0 : Rat)) [("LM358.pdf".toList, false)]
        ("http://x/a.pdf".toList) ("LM358".toList) =
      ⟨true, DlMsg.alreadyExists, some ("LM358.pdf".toList), some ("http://x/a.pdf".toList),
        [("LM358.pdf".toList, false)], 0, []⟩ := by
  have hmain := download_failure_no_partial_success 3 c6Oracle (fun _ => (0 : Rat))
    (fun i => if i = 0 then "connection reset".toList else "timeout".toList) []
    ("http://x/a.pdf".toList) ("LM358".toList)
  have h1 := hmain.1 rfl
    (fun i => by
      by_cases hi : i = 0
      · subst hi
        exact Or.inr ⟨("application/pdf".toList), rfl, rfl⟩
      · exact Or.inl (by simp [c6Oracle, hi]))
    (by omega)
  have h3 := (download_failure_no_partial_success 3 c6Oracle (fun _ => (0 : Rat))
    (fun _ => []) [("LM358.pdf".toList, false)]
    ("http://x/a.pdf".toList) ("LM358".toList)).2.2 rfl
  exact ⟨h1.1, h1.2, h3⟩

theorem partitionLinks_eq_filters : ∀ l : List Str,
    partitionLinks l =
      (l.filter (fun u => !skipLink u && isManufacturerUrl u),
       l.filter (fun u => !skipLink u && !isManufacturerUrl u)) := by
  intro l
  induction l with
  | nil => rfl
  | cons u rest ih =>
    cases hs : skipLink u with
    | true => simp [partitionLinks, List.filter, hs, ih]
    | false =>
      cases hm : isManufacturerUrl u with
      | true => simp [partitionLinks, List.filter, hs, hm, ih]
      | false => simp [partitionLinks, List.filter, hs, hm, ih]

/-- C8: candidate ranking is a stable partition: candidates whose URL
host matches the static domain allow-list come first, both partitions
keep their input order (the output is exactly the two order-preserving
filters concatenated, not a full sort), and cache or proxy links are
dropped entirely; in particular the input
[other1, mfr1, other2, mfr2] ranks to [mfr1, mfr2, other1, other2],
and a google cache link is dropped. -/
theorem ranking_stable_partition :
    (∀ links : List Str,
        rankCandidates links =
          links.filter (fun u => !skipLink u && isManufacturerUrl u) ++
            links.filter (fun u => !skipLink u && !isManufacturerUrl u))
    ∧ rankCandidates
        ["https://example.com/a.pdf".toList, "https://www.ti.com/x.pdf".toList,
         "https://randomsite.org/b.pdf".toList, "https://www.mouser.com/c.pdf".toList] =
        ["https://www.ti.com/x.pdf".toList, "https://www.mouser.com/c.pdf".toList,
         "https://example.com/a.pdf".toList, "https://randomsite.org/b.pdf".toList]
    ∧ rankCandidates
        ["https://webcache.googleusercontent.com/search?q=cache:x".toList] = [] := by
  refine ⟨?_, by decide, by decide⟩
  intro links
  rw [rankCandidates, partitionLinks_eq_filters]

theorem download_fail_fs (rc : Nat) (oracle : Nat → NetAttempt) (jit : Nat → Rat)
    (fs : FS) (url pn : Str)
    (h : (downloadDirectPdf rc oracle jit fs url pn).success = false) :
    (downloadDirectPdf rc oracle jit fs url pn).fs = fs ∨
      fsLookup (downloadDirectPdf rc oracle jit fs url pn).fs (pdfName pn) = some false := by
  cases hl : fsLookup fs (pdfName pn) with
  | some b =>
    have hdd : downloadDirectPdf rc oracle jit fs url pn =
        ⟨true, DlMsg.alreadyExists, some (pdfName pn), some url, fs, 0, []⟩ := by
      simp only [downloadDirectPdf, hl]
    rw [hdd] at h
    simp at h
  | none =>
    have hdd : downloadDirectPdf rc oracle jit fs url pn =
        dlGo oracle jit url (pdfName pn) rc 0 fs [] := by
      simp only [downloadDirectPdf, hl]
    rw [hdd] at h ⊢
    exact dlGo_fail_fs oracle jit url (pdfName pn) rc 0 fs [] h

/-- C9 (amended): whenever a downloaded candidate file is rejected by
the classifier, the cascade deletes it immediately before attempting the
next candidate, so after the call no completely-downloaded rejected file
remains at the target path: an accepted candidate ends the loop with its
file present, and when nothing is accepted the target path holds no
completely transferred file; however (the correction) a failed transfer
can leave a partially written, never-classified file behind, so it is
not true that only an accepted file survives the call. -/
theorem cascade_reject_cleanup (rc : Nat) (dl : Str → Nat → NetAttempt)
    (jit : Str → Nat → Rat) (accept : Str → Bool) (pn : Str) :
    ∀ (urls tried : List Str) (fs : FS),
      fsLookup fs (pdfName pn) ≠ some true →
      ((∀ p u, (tryCandidatesLoop rc dl jit accept pn urls tried fs).1 = some (p, u) →
          p = pdfName pn ∧
          (fsLookup (tryCandidatesLoop rc dl jit accept pn urls tried fs).2 p).isSome = true)
       ∧ ((tryCandidatesLoop rc dl jit accept pn urls tried fs).1 = none →
          fsLookup (tryCandidatesLoop rc dl jit accept pn urls tried fs).2 (pdfName pn)
            ≠ some true)) := by
  intro urls
  induction urls with
  | nil =>
    intro tried fs hinv
    constructor
    · intro p u h
      simp [tryCandidatesLoop] at h
    · intro _
      exact hinv
  | cons u rest ih =>
    intro tried fs hinv
    by_cases hmem : u ∈ tried
    · have hstep : tryCandidatesLoop rc dl jit accept pn (u :: rest) tried fs =
          tryCandidatesLoop rc dl jit accept pn rest tried fs := by
        simp only [tryCandidatesLoop, if_pos hmem]
      rw [hstep]
      exact ih tried fs hinv
    · by_cases hsucc : (downloadDirectPdf rc (dl u) (jit u) fs u pn).success = true
      · obtain ⟨hfp, hlook⟩ := download_success_lookup rc (dl u) (jit u) fs u pn hsucc
        by_cases hacc : accept u = true
        · have hstep : tryCandidatesLoop rc dl jit accept pn (u :: rest) tried fs =
              (some (pdfName pn, u), (downloadDirectPdf rc (dl u) (jit u) fs u pn).fs) := by
            simp only [tryCandidatesLoop, if_neg hmem, hsucc, if_true, hfp, hacc]
          rw [hstep]
          constructor
          · intro p u' h
            obtain ⟨hp, -⟩ := Prod.mk.injEq .. ▸ (Option.some.injEq .. ▸ h)
            exact ⟨hp.symm, by rw [← hp]; exact hlook⟩
          · intro h
            simp at h
        · have hacc' : accept u = false := by
            simp only [Bool.not_eq_true] at hacc
            exact hacc
          have hstep : tryCandidatesLoop rc dl jit accept pn (u :: rest) tried fs =
              tryCandidatesLoop rc dl jit accept pn rest (tried ++ [u])
                (fsRemove (downloadDirectPdf rc (dl u) (jit u) fs u pn).fs (pdfName pn)) := by
            simp only [tryCandidatesLoop, if_neg hmem, hsucc, if_true, hfp, hacc']
            simp
          rw [hstep]
          refine ih (tried ++ [u]) _ ?_
          rw [fsLookup_remove]
          simp
      · have hsucc' : (downloadDirectPdf rc (dl u) (jit u) fs u pn).success = false := by
          simp only [Bool.not_eq_true] at hsucc
          exact hsucc
        have hstep : tryCandidatesLoop rc dl jit accept pn (u :: rest) tried fs =
            tryCandidatesLoop rc dl jit accept pn rest (tried ++ [u])
              (downloadDirectPdf rc (dl u) (jit u) fs u pn).fs := by
          simp only [tryCandidatesLoop, if_neg hmem, hsucc']
          simp
        rw [hstep]
        refine ih (tried ++ [u]) _ ?_
        rcases download_fail_fs rc (dl u) (jit u) fs u pn hsucc' with hh | hh
        · rw [hh]
          exact hinv
        · rw [hh]
          simp

theorem cascade_reject_cleanup_witness :
    (fsLookup (tryCandidatesLoop 3 (fun _ _ => NetAttempt.resp ("application/pdf".toList) none)
        (fun _ _ => (0 : Rat)) (fun _ => true) ("LM358".toList)
        ["https://www.ti.com/x.pdf".toList] [] []).2 ("LM358.pdf".toList)).isSome = true ∧
    fsLookup (tryCandidatesLoop 3 (fun _ _ => NetAttempt.resp ("application/pdf".toList) none)
        (fun _ _ => (0 : Rat)) (fun _ => false) ("LM358".toList)
        ["https://a.com/1.pdf".toList, "https://b.com/2.pdf".toList] [] []).2
      ("LM358.pdf".toList) ≠ some true := by
  constructor
  · exact ((cascade_reject_cleanup 3 (fun _ _ => NetAttempt.resp ("application/pdf".toList) none)
      (fun _ _ => (0 : Rat)) (fun _ => true) ("LM358".toList)
      ["https://www.ti.com/x.pdf".toList] [] [] (by simp [fsLookup])).1
      ("LM358.pdf".toList) ("https://www.ti.com/x.pdf".toList) rfl).2
  · exact (cascade_reject_cleanup 3 (fun _ _ => NetAttempt.resp ("application/pdf".toList) none)
      (fun _ _ => (0 : Rat)) (fun _ => false) ("LM358".toList)
      ["https://a.com/1.pdf".toList, "https://b.com/2.pdf".toList] [] []
      (by simp [fsLookup])).2 rfl

/-- C9 counterexample: with a single candidate whose body transfer
raises on every attempt, the call ends with no accepted candidate, yet a
partially written file — downloaded by this call, never classified and
never deleted — remains on disk at the target path, refuting the clause
that after any resolution call only an accepted file survives. -/
theorem cascade_leftover_counterexample :
    (tryCandidatesLoop 1 (fun _ _ => NetAttempt.resp ("application/pdf".toList)
        (some ("connection reset".toList)))
      (fun _ _ => (0 : Rat)) (fun _ => false) ("LM358".toList)
      ["https://www.ti.com/bad.pdf".toList] [] []).1 = none ∧
    fsLookup (tryCandidatesLoop 1 (fun _ _ => NetAttempt.resp ("application/pdf".toList)
        (some ("connection reset".toList)))
      (fun _ _ => (0 : Rat)) (fun _ => false) ("LM358".toList)
      ["https://www.ti.com/bad.pdf".toList] [] []).2 ("LM358.pdf".toList) = some false :=
  ⟨rfl, rfl⟩

end DatasheetDL
